import Mathlib

/-!
Verification of the `MultiHeadAttention` layer from
`keras_multi_head/multi_head_attention.py` (whaozl/keras-multi-head).

Shallow embedding: tensors of shape (batch, sequence, feature) are nested
lists over `ℤ`; the external scaled-dot-product-attention primitive is a
parameter `att : Prim`; the host framework's `add_weight` is recorded as the
argument list the layer passes to it; Python's `%` on integers is embedded
with its zero-divisor exception made explicit.
-/

namespace KerasMultiHead

/-- A rank-3 tensor of shape (batch, sequence, feature). -/
abbrev Tensor3 : Type := List (List (List ℤ))

/-- A weight matrix. -/
abbrev Mat : Type := List (List ℤ)

/-- The external scaled-dot-product-attention primitive: (q, k, v) ↦ output. -/
abbrev Prim : Type := Tensor3 → Tensor3 → Tensor3 → Tensor3

/-- A mask tensor aligned with (batch, sequence). -/
abbrev Mask : Type := List (List Bool)

/-- Dot product of two vectors (rows). -/
def dotVec (x y : List ℤ) : ℤ := (List.zipWith (· * ·) x y).sum

/-- Number of columns of a matrix, read off the first row (0 for the empty
matrix), as the runtime shape of a well-formed matrix. -/
def numCols (w : Mat) : ℕ := ((w.head?).map List.length).getD 0

/-- Column `j` of a matrix. -/
def getCol (w : Mat) (j : ℕ) : List ℤ := w.map (fun r => r.getD j 0)

/-- Row vector times matrix: entry `j` of the result is `Σ_t x_t * w_{t,j}`. -/
def rowMul (x : List ℤ) (w : Mat) : List ℤ :=
  (List.range (numCols w)).map (fun j => dotVec x (getCol w j))

/-- `K.dot(inputs, W)` for a rank-3 `inputs` and a rank-2 `W`: matrix
multiplication over the trailing (feature) dimension, batched over the
leading two dimensions. -/
def dot3 (t : Tensor3) (w : Mat) : Tensor3 :=
  t.map (fun x => x.map (fun r => rowMul r w))

/-- Python slice `t[:, :, b:e]` along the feature dimension. -/
def slice3 (t : Tensor3) (b e : ℕ) : Tensor3 :=
  t.map (fun x => x.map (fun r => (r.drop b).take (e - b)))

/-- `K.concatenate(outputs)`: concatenation along the trailing (feature)
dimension of a non-empty list of same-shaped tensors. -/
def concat3 : List Tensor3 → Tensor3
  | [] => []
  | [t] => t
  | t :: t' :: ts => List.zipWith (List.zipWith (· ++ ·)) t (concat3 (t' :: ts))

/-- `K.shape(inputs)[-1]`: the runtime feature dimension of a well-formed
tensor, read off its first row. -/
def featureDim (t : Tensor3) : ℕ :=
  (((t.head?).bind List.head?).map List.length).getD 0

/-- The activation (`self.activation`), applied elementwise when one is
configured; `none` is the no-activation configuration and is the guard of the
source's `if self.activation is not None`. -/
def applyAct (ac : Option (ℤ → ℤ)) (t : Tensor3) : Tensor3 :=
  match ac with
  | none => t
  | some f => t.map (fun x => x.map (fun r => r.map f))

/-- Errors the Python code can raise in `build`: the explicit `IndexError`
with its message, and the interpreter's `ZeroDivisionError` from `%` when
`head_num == 0`. -/
inductive PyError : Type where
  | zeroDivisionError : PyError
  | indexError : String → PyError
deriving DecidableEq

/-- One `self.add_weight(...)` call, as the arguments the layer passes;
`add_weight`'s unpassed parameters keep their framework defaults
(`regularizer=None`, `constraint=None`). -/
structure AddWeightArgs : Type where
  shape : ℕ × ℕ
  initializer : String
  name : String
  regularizer : Option String
  constraint : Option String
deriving DecidableEq

/-- The layer's configuration state after `__init__`. `activation` is stored
as `Option`, `none` standing for the no-activation configuration tested by
`is not None` in `call`; initializer/regularizer/constraint are the
framework identifiers the layer stores and may pass to `add_weight`. -/
structure MultiHeadAttention : Type where
  head_num : ℕ
  activation : Option (ℤ → ℤ)
  kernel_initializer : String
  kernel_regularizer : Option String
  kernel_constraint : Option String
  name : String

/-- The four weight matrices held in `self.kernels` after a successful build. -/
structure Kernels : Type where
  Wq : Mat
  Wk : Mat
  Wv : Mat
  Wo : Mat

/-- The `IndexError` message
`'Invalid head number %d with the given input dim %d' % (head_num, feature_dim)`. -/
def invalidHeadMsg (h f : ℕ) : String :=
  "Invalid head number " ++ toString h ++ " with the given input dim " ++ toString f

/-- The `add_weight` argument lists `build` issues for `Wq, Wk, Wv, Wo`, in
source order: `shape=(feature_dim, feature_dim)`,
`initializer=self.kernel_initializer`, `name='%s_%s' % (self.name, name)`,
and nothing else (so regularizer and constraint stay at their `None`
defaults). -/
def MultiHeadAttention.buildWeights (l : MultiHeadAttention) (feature_dim : ℕ) :
    List AddWeightArgs :=
  ["Wq", "Wk", "Wv", "Wo"].map (fun nm =>
    ⟨(feature_dim, feature_dim), l.kernel_initializer, l.name ++ "_" ++ nm, none, none⟩)

/-- `build(input_shape)`: reads `feature_dim = input_shape[-1]`, evaluates
`feature_dim % self.head_num` (Python raises `ZeroDivisionError` when
`head_num == 0`), raises the `IndexError` when the remainder is non-zero,
and otherwise records the four `add_weight` calls. -/
def MultiHeadAttention.build (l : MultiHeadAttention) (input_shape : List ℕ) :
    Except PyError (List AddWeightArgs) :=
  let feature_dim := (input_shape.getLast?).getD 0
  if l.head_num = 0 then
    .error .zeroDivisionError
  else if feature_dim % l.head_num ≠ 0 then
    .error (.indexError (invalidHeadMsg l.head_num feature_dim))
  else
    .ok (l.buildWeights feature_dim)

/-- `compute_output_shape(input_shape)`: returns the input shape. -/
def MultiHeadAttention.compute_output_shape (_l : MultiHeadAttention)
    (input_shape : List ℕ) : List ℕ :=
  input_shape

/-- `compute_mask(inputs, input_mask)`: returns the input mask. -/
def MultiHeadAttention.compute_mask (_l : MultiHeadAttention) (_inputs : Tensor3)
    (input_mask : Option Mask) : Option Mask :=
  input_mask

/-- The per-head `ScaledDotProductAttention(name='%s-Att-%d' % (self.name, i+1))`
instance: a named occurrence of the external primitive. -/
def headInstance (l : MultiHeadAttention) (att : Prim) (i : ℕ) : String × Prim :=
  (l.name ++ "-Att-" ++ toString (i + 1), att)

/-- Applying a scaled-dot-product-attention instance to the three slices; the
instance's name plays no part in the computation. -/
def applyInstance (inst : String × Prim) (q k v : Tensor3) : Tensor3 :=
  inst.2 q k v

/-- `call(inputs, mask=None)` with head `i`'s slice handed to the instance of
head `assign i`; the source is the case `assign = id`. -/
def MultiHeadAttention.callAssigned (l : MultiHeadAttention) (att : Prim)
    (assign : ℕ → ℕ) (ks : Kernels) (inputs : Tensor3) (mask : Option Mask) :
    Tensor3 :=
  let feature_dim := featureDim inputs
  let head_dim := feature_dim / l.head_num
  let q := applyAct l.activation (dot3 inputs ks.Wq)
  let k := applyAct l.activation (dot3 inputs ks.Wk)
  let v := applyAct l.activation (dot3 inputs ks.Wv)
  let outputs := (List.range l.head_num).map (fun i =>
    applyInstance (headInstance l att (assign i))
      (slice3 q (i * head_dim) ((i + 1) * head_dim))
      (slice3 k (i * head_dim) ((i + 1) * head_dim))
      (slice3 v (i * head_dim) ((i + 1) * head_dim)))
  applyAct l.activation (dot3 (concat3 outputs) ks.Wo)

/-- `call(inputs, mask=None)`: the forward transform of the source, with the
post-build weights `ks` and the external primitive `att`. The `mask`
argument is accepted and, as in the source, never used. -/
def MultiHeadAttention.call (l : MultiHeadAttention) (att : Prim) (ks : Kernels)
    (inputs : Tensor3) (mask : Option Mask) : Tensor3 :=
  let feature_dim := featureDim inputs
  let head_dim := feature_dim / l.head_num
  let q := applyAct l.activation (dot3 inputs ks.Wq)
  let k := applyAct l.activation (dot3 inputs ks.Wk)
  let v := applyAct l.activation (dot3 inputs ks.Wv)
  let outputs := (List.range l.head_num).map (fun i =>
    applyInstance (headInstance l att i)
      (slice3 q (i * head_dim) ((i + 1) * head_dim))
      (slice3 k (i * head_dim) ((i + 1) * head_dim))
      (slice3 v (i * head_dim) ((i + 1) * head_dim)))
  applyAct l.activation (dot3 (concat3 outputs) ks.Wo)

/-- Reference composition, written from the spec's per-call transform steps:
projections `q = input·Wq`, `k = input·Wk`, `v = input·Wv`; the configured
activation applied elementwise to each; per head `i` the feature range
`[i·head_dim, (i+1)·head_dim)` of q, k, v handed to the primitive, head `i`'s
output at position `i` of the concatenation; final projection by `Wo` and the
activation once more. -/
def specTransform (att : Prim) (activation : Option (ℤ → ℤ)) (head_num : ℕ)
    (wq wk wv wo : Mat) (inputs : Tensor3) : Tensor3 :=
  let head_dim := featureDim inputs / head_num
  let q := applyAct activation (dot3 inputs wq)
  let k := applyAct activation (dot3 inputs wk)
  let v := applyAct activation (dot3 inputs wv)
  let heads := (List.range head_num).map (fun i =>
    att (slice3 q (i * head_dim) ((i + 1) * head_dim))
        (slice3 k (i * head_dim) ((i + 1) * head_dim))
        (slice3 v (i * head_dim) ((i + 1) * head_dim)))
  applyAct activation (dot3 (concat3 heads) wo)

/-- The composition of the projections, per-head attention, concatenation and
output projection with no elementwise nonlinearity anywhere, written from the
spec's description of the no-activation configuration. -/
def plainTransform (att : Prim) (head_num : ℕ) (wq wk wv wo : Mat)
    (inputs : Tensor3) : Tensor3 :=
  let head_dim := featureDim inputs / head_num
  let q := dot3 inputs wq
  let k := dot3 inputs wk
  let v := dot3 inputs wv
  let heads := (List.range head_num).map (fun i =>
    att (slice3 q (i * head_dim) ((i + 1) * head_dim))
        (slice3 k (i * head_dim) ((i + 1) * head_dim))
        (slice3 v (i * head_dim) ((i + 1) * head_dim)))
  dot3 (concat3 heads) wo

/-- The four weight roles of the spec. -/
inductive Role : Type where
  | query : Role
  | key : Role
  | value : Role
  | output : Role
deriving DecidableEq

/-- The source's kernel-dictionary key for each role. -/
def roleWeightName : Role → String
  | .query => "Wq"
  | .key => "Wk"
  | .value => "Wv"
  | .output => "Wo"

/-- The four roles in the order the source declares their weights. -/
def allRoles : List Role := [.query, .key, .value, .output]

/-- A matrix has `r` rows, each of length `c`. -/
def matShape (w : Mat) (r c : ℕ) : Prop :=
  w.length = r ∧ ∀ row ∈ w, row.length = c

/-- A rank-3 tensor has batch size `b` and `s` positions per batch entry
(feature widths unconstrained). -/
def hasShape2 (t : Tensor3) (b s : ℕ) : Prop :=
  t.length = b ∧ ∀ x ∈ t, x.length = s

/-- A rank-3 tensor has shape (b, s, f). -/
def hasShape3 (t : Tensor3) (b s f : ℕ) : Prop :=
  t.length = b ∧ ∀ x ∈ t, x.length = s ∧ ∀ r ∈ x, r.length = f

instance (w : Mat) (r c : ℕ) : Decidable (matShape w r c) := by
  unfold matShape; infer_instance

instance (t : Tensor3) (b s : ℕ) : Decidable (hasShape2 t b s) := by
  unfold hasShape2; infer_instance

instance (t : Tensor3) (b s f : ℕ) : Decidable (hasShape3 t b s f) := by
  unfold hasShape3; infer_instance

theorem hasShape2_of_hasShape3 {t : Tensor3} {b s f : ℕ} (h : hasShape3 t b s f) :
    hasShape2 t b s :=
  ⟨h.1, fun x hx => ((h.2 x hx)).1⟩

theorem numCols_of_square {w : Mat} {f : ℕ} (h : matShape w f f) : numCols w = f := by
  obtain ⟨hlen, hrow⟩ := h
  cases w with
  | nil =>
      have : f = 0 := by simpa using hlen.symm
      simp [numCols, this]
  | cons r rs =>
      have : r.length = f := hrow r (List.mem_cons_self r rs)
      simpa [numCols] using this

theorem length_rowMul (x : List ℤ) (w : Mat) : (rowMul x w).length = numCols w := by
  simp [rowMul]

theorem dot3_shape {t : Tensor3} {b s : ℕ} (w : Mat) (h : hasShape2 t b s) :
    hasShape3 (dot3 t w) b s (numCols w) := by
  obtain ⟨hlen, hrow⟩ := h
  refine ⟨by simpa [dot3] using hlen, ?_⟩
  intro x hx
  simp only [dot3, List.mem_map] at hx
  obtain ⟨x0, hx0, rfl⟩ := hx
  refine ⟨by simpa using hrow x0 hx0, ?_⟩
  intro r hr
  simp only [List.mem_map] at hr
  obtain ⟨r0, _, rfl⟩ := hr
  exact length_rowMul r0 w

theorem applyAct_shape3 {t : Tensor3} {b s f : ℕ} (ac : Option (ℤ → ℤ))
    (h : hasShape3 t b s f) : hasShape3 (applyAct ac t) b s f := by
  cases ac with
  | none => simpa [applyAct] using h
  | some g =>
      obtain ⟨hlen, hrow⟩ := h
      refine ⟨by simpa [applyAct] using hlen, ?_⟩
      intro x hx
      simp only [applyAct, List.mem_map] at hx
      obtain ⟨x0, hx0, rfl⟩ := hx
      refine ⟨by simpa using (hrow x0 hx0).1, ?_⟩
      intro r hr
      simp only [List.mem_map] at hr
      obtain ⟨r0, hr0, rfl⟩ := hr
      simpa using (hrow x0 hx0).2 r0 hr0

theorem slice3_shape3 {t : Tensor3} {b s f : ℕ} (a e : ℕ) (h : hasShape3 t b s f) :
    hasShape3 (slice3 t a e) b s (min (e - a) (f - a)) := by
  obtain ⟨hlen, hrow⟩ := h
  refine ⟨by simpa [slice3] using hlen, ?_⟩
  intro x hx
  simp only [slice3, List.mem_map] at hx
  obtain ⟨x0, hx0, rfl⟩ := hx
  refine ⟨by simpa using (hrow x0 hx0).1, ?_⟩
  intro r hr
  simp only [List.mem_map] at hr
  obtain ⟨r0, hr0, rfl⟩ := hr
  have hr0len : r0.length = f := (hrow x0 hx0).2 r0 hr0
  simp [List.length_take, List.length_drop, hr0len]

theorem mem_zipWith_exists {α β γ : Type} {g : α → β → γ} :
    ∀ {as : List α} {bs : List β} {c : γ}, c ∈ List.zipWith g as bs →
      ∃ a ∈ as, ∃ b ∈ bs, c = g a b := by
  intro as
  induction as with
  | nil => intro bs c h; simp at h
  | cons a as ih =>
      intro bs c h
      cases bs with
      | nil => simp at h
      | cons b bs =>
          simp only [List.zipWith_cons_cons, List.mem_cons] at h
          rcases h with h | h
          · exact ⟨a, List.mem_cons_self a as, b, List.mem_cons_self b bs, h⟩
          · obtain ⟨a0, ha0, b0, hb0, rfl⟩ := ih h
            exact ⟨a0, List.mem_cons_of_mem a ha0, b0, List.mem_cons_of_mem b hb0, rfl⟩

theorem concat3_shape2 {b s : ℕ} :
    ∀ {ts : List Tensor3}, ts ≠ [] → (∀ t ∈ ts, hasShape2 t b s) →
      hasShape2 (concat3 ts) b s := by
  intro ts
  induction ts with
  | nil => intro h; exact absurd rfl h
  | cons t rest ih =>
      intro _ hall
      cases rest with
      | nil => simpa [concat3] using hall t (List.mem_cons_self t [])
      | cons t' rest' =>
          have hrest : hasShape2 (concat3 (t' :: rest')) b s :=
            ih (by simp) (fun u hu => hall u (List.mem_cons_of_mem t hu))
          have ht : hasShape2 t b s := hall t (List.mem_cons_self t _)
          refine ⟨?_, ?_⟩
          · simp [concat3, List.length_zipWith, ht.1, hrest.1]
          · intro x hx
            simp only [concat3] at hx
            obtain ⟨x1, hx1, x2, hx2, rfl⟩ := mem_zipWith_exists hx
            simp [List.length_zipWith, ht.2 x1 hx1, hrest.2 x2 hx2]

theorem string_append_left_cancel (s a b : String) (h : s ++ a = s ++ b) : a = b := by
  have h2 := congrArg String.data h
  simp only [String.data_append] at h2
  exact String.ext (List.append_cancel_left h2)

/-- C4: `compute_mask` returns exactly the supplied input mask, for every mask
including `none`; the layer never creates or transforms a mask of its own. -/
theorem compute_mask_passthrough (l : MultiHeadAttention) (inputs : Tensor3)
    (input_mask : Option Mask) : l.compute_mask inputs input_mask = input_mask :=
  rfl

/-- C9: `call` ignores its mask argument: with the weights and input fixed,
any two mask values (including `none`) produce the same output, because the
mask is never forwarded to the per-head attention invocations. -/
theorem call_ignores_mask (l : MultiHeadAttention) (att : Prim) (ks : Kernels)
    (inputs : Tensor3) (m1 m2 : Option Mask) :
    l.call att ks inputs m1 = l.call att ks inputs m2 :=
  rfl

/-- C3: for every built layer and every input, the forward transform `call`
equals the reference composition of the spec: projections by Wq/Wk/Wv,
activation, per-head slicing into the attention primitive with head `i`'s
output at concatenation position `i`, output projection by Wo, activation. -/
theorem call_eq_spec_composition (l : MultiHeadAttention) (att : Prim)
    (ks : Kernels) (inputs : Tensor3) (mask : Option Mask) :
    l.call att ks inputs mask =
      specTransform att l.activation l.head_num ks.Wq ks.Wk ks.Wv ks.Wo inputs :=
  rfl

/-- C10: a layer constructed with `head_num = 0` makes `build` fail with the
division-by-zero error from `feature_dim % head_num`, not with the named
`IndexError`, for every input shape. -/
theorem build_zero_heads_division_error (l : MultiHeadAttention)
    (input_shape : List ℕ) (h : l.head_num = 0) :
    l.build input_shape = .error .zeroDivisionError := by
  simp [MultiHeadAttention.build, h]

/-- Witness for C10 at `head_num = 0` and input shape `[2, 3, 4]`. -/
theorem build_zero_heads_division_error_witness :
    (⟨0, none, "glorot_normal", none, none, "mha_1"⟩ : MultiHeadAttention).build
        [2, 3, 4] = .error .zeroDivisionError :=
  build_zero_heads_division_error _ [2, 3, 4] rfl

/-- C8: with the no-activation configuration (`activation = none`), `call`
skips both activation passes and equals the plain composition of the
projections, per-head attention, concatenation and output projection. -/
theorem call_no_activation_eq_plain (l : MultiHeadAttention) (att : Prim)
    (ks : Kernels) (inputs : Tensor3) (mask : Option Mask)
    (h : l.activation = none) :
    l.call att ks inputs mask =
      plainTransform att l.head_num ks.Wq ks.Wk ks.Wv ks.Wo inputs := by
  simp [MultiHeadAttention.call, plainTransform, h, applyAct, applyInstance,
    headInstance]

/-- Witness for C8 on a 1-head layer with `activation = none`. -/
theorem call_no_activation_eq_plain_witness :
    (⟨1, none, "glorot_normal", none, none, "mha_1"⟩ :
        MultiHeadAttention).activation = none ∧
    (⟨1, none, "glorot_normal", none, none, "mha_1"⟩ :
        MultiHeadAttention).call (fun q _ _ => q) ⟨[[1]], [[1]], [[1]], [[1]]⟩
        [[[2]]] none =
      plainTransform (fun q _ _ => q) 1 [[1]] [[1]] [[1]] [[1]] [[[2]]] :=
  ⟨rfl, call_no_activation_eq_plain _ _ _ _ _ rfl⟩

/-- C5 evidence: a layer configured with a kernel regularizer and a kernel
constraint still issues its four `add_weight` calls with `regularizer` and
`constraint` left at their `None` defaults — the configured values are
dropped (the source passes only `shape`, `initializer` and `name`). -/
theorem build_drops_regularizer_and_constraint :
    (⟨2, none, "glorot_normal", some "l2", some "max_norm", "mha_reg"⟩ :
        MultiHeadAttention).kernel_regularizer = some "l2" ∧
    (⟨2, none, "glorot_normal", some "l2", some "max_norm", "mha_reg"⟩ :
        MultiHeadAttention).kernel_constraint = some "max_norm" ∧
    ∃ calls,
      (⟨2, none, "glorot_normal", some "l2", some "max_norm", "mha_reg"⟩ :
          MultiHeadAttention).build [1, 3, 4] = .ok calls ∧
      calls.length = 4 ∧
      ∀ c ∈ calls, c.regularizer = none ∧ c.constraint = none := by
  refine ⟨rfl, rfl, _, rfl, by decide, by decide⟩

/-- C2: with a positive head count, `build` raises its `IndexError` exactly
when the trailing dimension is not divisible by `head_num`, the message
containing the decimal forms of both `head_num` and `feature_dim`; when
divisibility holds, `build` completes, recording the four weight calls. -/
theorem build_error_iff_not_divisible (l : MultiHeadAttention)
    (input_shape : List ℕ) (f : ℕ) (hf : input_shape.getLast? = some f)
    (hh : 0 < l.head_num) :
    (f % l.head_num ≠ 0 →
      l.build input_shape = .error (.indexError (invalidHeadMsg l.head_num f)) ∧
      (∃ a b, invalidHeadMsg l.head_num f = a ++ toString l.head_num ++ b) ∧
      (∃ a b, invalidHeadMsg l.head_num f = a ++ toString f ++ b)) ∧
    (f % l.head_num = 0 → l.build input_shape = .ok (l.buildWeights f)) := by
  have hne : l.head_num ≠ 0 := Nat.pos_iff_ne_zero.mp hh
  constructor
  · intro hmod
    refine ⟨?_, ⟨"Invalid head number ", " with the given input dim " ++ toString f, ?_⟩,
      ⟨"Invalid head number " ++ toString l.head_num ++ " with the given input dim ",
        "", ?_⟩⟩
    · simp [MultiHeadAttention.build, hf, hne, hmod]
    · simp [invalidHeadMsg, String.append_assoc]
    · simp [invalidHeadMsg, String.append_assoc]
  · intro hmod
    simp [MultiHeadAttention.build, hf, hne, hmod]

/-- Witness for C2 at the spec's example `head_num = 3`, `feature_dim = 10`. -/
theorem build_error_iff_not_divisible_witness :
    (10 % 3 ≠ 0) ∧
    ((⟨3, none, "glorot_normal", none, none, "mha_1"⟩ : MultiHeadAttention).build
        [2, 5, 10] = .error (.indexError (invalidHeadMsg 3 10)) ∧
      (∃ a b, invalidHeadMsg 3 10 = a ++ toString 3 ++ b) ∧
      (∃ a b, invalidHeadMsg 3 10 = a ++ toString 10 ++ b)) :=
  ⟨by decide,
    (build_error_iff_not_divisible _ [2, 5, 10] 10 rfl (by decide)).1 (by decide)⟩

/-- C6: under the divisibility precondition, `build` declares exactly four
weights, in role order query/key/value/output, each of shape
`(feature_dim, feature_dim)`, each initialized with the configured
`kernel_initializer`, each named from the layer's own name and the role's
kernel key; the four names are pairwise distinct, so they map one-to-one
onto the roles. -/
theorem build_weight_declarations (l : MultiHeadAttention)
    (input_shape : List ℕ) (f : ℕ) (hf : input_shape.getLast? = some f)
    (hh : 0 < l.head_num) (hmod : f % l.head_num = 0) :
    l.build input_shape = .ok (allRoles.map (fun r =>
      ⟨(f, f), l.kernel_initializer, l.name ++ "_" ++ roleWeightName r,
        none, none⟩)) ∧
    (allRoles.map (fun r => l.name ++ "_" ++ roleWeightName r)).Nodup := by
  have hne : l.head_num ≠ 0 := Nat.pos_iff_ne_zero.mp hh
  have key : ∀ a b : String, a ≠ b → ¬(l.name ++ "_" ++ a = l.name ++ "_" ++ b) := by
    intro a b hab h
    exact hab (string_append_left_cancel (l.name ++ "_") a b h)
  constructor
  · simp [MultiHeadAttention.build, hf, hne, hmod, MultiHeadAttention.buildWeights,
      allRoles, roleWeightName]
  · have hqk := key "Wq" "Wk" (by decide)
    have hqv := key "Wq" "Wv" (by decide)
    have hqo := key "Wq" "Wo" (by decide)
    have hkv := key "Wk" "Wv" (by decide)
    have hko := key "Wk" "Wo" (by decide)
    have hvo := key "Wv" "Wo" (by decide)
    simp [allRoles, roleWeightName, List.nodup_cons, hqk, hqv, hqo, hkv, hko, hvo]

/-- Witness for C6 on a layer named `mha_1` with `head_num = 2` and
`feature_dim = 4`. -/
theorem build_weight_declarations_witness :
    ((⟨2, none, "glorot_normal", none, none, "mha_1"⟩ : MultiHeadAttention).build
        [1, 3, 4] = .ok (allRoles.map (fun r =>
          ⟨(4, 4), "glorot_normal", "mha_1" ++ "_" ++ roleWeightName r,
            none, none⟩)) ∧
      (allRoles.map (fun r => "mha_1" ++ "_" ++ roleWeightName r)).Nodup) :=
  build_weight_declarations _ [1, 3, 4] 4 rfl (by decide) (by decide)

/-- C1: for every configuration with `feature_dim % head_num = 0`, every
input of shape (b, s, f), built weights of shape (f, f) and an attention
primitive meeting its shape contract, `call` returns a tensor of the same
shape (b, s, f), and `compute_output_shape` returns the input shape
unchanged. -/
theorem call_preserves_shape (l : MultiHeadAttention) (att : Prim) (ks : Kernels)
    (inputs : Tensor3) (mask : Option Mask) (b s f : ℕ)
    (hh : 0 < l.head_num) (hmod : f % l.head_num = 0)
    (hin : hasShape3 inputs b s f)
    (hWq : matShape ks.Wq f f) (hWk : matShape ks.Wk f f)
    (hWv : matShape ks.Wv f f) (hWo : matShape ks.Wo f f)
    (hatt : ∀ (q k v : Tensor3) (b2 s2 d : ℕ), hasShape3 q b2 s2 d →
      hasShape3 k b2 s2 d → hasShape3 v b2 s2 d → hasShape3 (att q k v) b2 s2 d) :
    hasShape3 (l.call att ks inputs mask) b s f ∧
    ∀ shape : List ℕ, l.compute_output_shape shape = shape := by
  refine ⟨?_, fun _ => rfl⟩
  have hin2 := hasShape2_of_hasShape3 hin
  have hq : hasShape3 (applyAct l.activation (dot3 inputs ks.Wq)) b s f := by
    have h := applyAct_shape3 l.activation (dot3_shape ks.Wq hin2)
    rwa [numCols_of_square hWq] at h
  have hk : hasShape3 (applyAct l.activation (dot3 inputs ks.Wk)) b s f := by
    have h := applyAct_shape3 l.activation (dot3_shape ks.Wk hin2)
    rwa [numCols_of_square hWk] at h
  have hv : hasShape3 (applyAct l.activation (dot3 inputs ks.Wv)) b s f := by
    have h := applyAct_shape3 l.activation (dot3_shape ks.Wv hin2)
    rwa [numCols_of_square hWv] at h
  show hasShape3 (applyAct l.activation (dot3 (concat3 _) ks.Wo)) b s f
  have hconcat : hasShape2 (concat3 ((List.range l.head_num).map (fun i =>
      applyInstance (headInstance l att i)
        (slice3 (applyAct l.activation (dot3 inputs ks.Wq))
          (i * (featureDim inputs / l.head_num))
          ((i + 1) * (featureDim inputs / l.head_num)))
        (slice3 (applyAct l.activation (dot3 inputs ks.Wk))
          (i * (featureDim inputs / l.head_num))
          ((i + 1) * (featureDim inputs / l.head_num)))
        (slice3 (applyAct l.activation (dot3 inputs ks.Wv))
          (i * (featureDim inputs / l.head_num))
          ((i + 1) * (featureDim inputs / l.head_num)))))) b s := by
    refine concat3_shape2 ?_ ?_
    · apply List.ne_nil_of_length_pos
      simpa using hh
    · intro t ht
      simp only [List.mem_map, List.mem_range] at ht
      obtain ⟨i, _, rfl⟩ := ht
      have hs := hatt _ _ _ b s _
        (slice3_shape3 (i * (featureDim inputs / l.head_num))
          ((i + 1) * (featureDim inputs / l.head_num)) hq)
        (slice3_shape3 (i * (featureDim inputs / l.head_num))
          ((i + 1) * (featureDim inputs / l.head_num)) hk)
        (slice3_shape3 (i * (featureDim inputs / l.head_num))
          ((i + 1) * (featureDim inputs / l.head_num)) hv)
      exact hasShape2_of_hasShape3 hs
  have hfinal := applyAct_shape3 l.activation (dot3_shape ks.Wo hconcat)
  rwa [numCols_of_square hWo] at hfinal

/-- Witness for C1: a 2-head layer on a (1, 1, 2) input with identity
weights, the primitive returning its value slice. -/
theorem call_preserves_shape_witness :
    (0 < 2 ∧ 2 % 2 = 0 ∧ hasShape3 [[[1, 2]]] 1 1 2) ∧
    hasShape3 ((⟨2, none, "glorot_normal", none, none, "mha_1"⟩ :
        MultiHeadAttention).call (fun _ _ v => v)
        ⟨[[1, 0], [0, 1]], [[1, 0], [0, 1]], [[1, 0], [0, 1]], [[1, 0], [0, 1]]⟩
        [[[1, 2]]] none) 1 1 2 :=
  ⟨⟨by decide, by decide, by decide⟩,
    (call_preserves_shape _ _ _ _ none 1 1 2 (by decide) (by decide) (by decide)
      (by decide) (by decide) (by decide) (by decide)
      (fun _ _ _ _ _ _ _ _ hv => hv)).1⟩

/-- C7: head independence — reassigning which head's attention instance
processes which slice by any permutation of head indices, while keeping each
slice's result at its own concatenation position, leaves the output of
`call` unchanged; and each per-head invocation depends only on the feature
range `[i*hd, (i+1)*hd)` of the projected q, k, v tensors. -/
theorem head_permutation_invariant (l : MultiHeadAttention) (att : Prim)
    (ks : Kernels) (inputs : Tensor3) (mask : Option Mask) (p : ℕ → ℕ)
    (hp : Function.Bijective p) :
    l.callAssigned att p ks inputs mask = l.call att ks inputs mask ∧
    (∀ (q q' k k' v v' : Tensor3) (hd i j : ℕ),
      slice3 q (i * hd) ((i + 1) * hd) = slice3 q' (i * hd) ((i + 1) * hd) →
      slice3 k (i * hd) ((i + 1) * hd) = slice3 k' (i * hd) ((i + 1) * hd) →
      slice3 v (i * hd) ((i + 1) * hd) = slice3 v' (i * hd) ((i + 1) * hd) →
      applyInstance (headInstance l att j) (slice3 q (i * hd) ((i + 1) * hd))
          (slice3 k (i * hd) ((i + 1) * hd)) (slice3 v (i * hd) ((i + 1) * hd)) =
        applyInstance (headInstance l att j) (slice3 q' (i * hd) ((i + 1) * hd))
          (slice3 k' (i * hd) ((i + 1) * hd))
          (slice3 v' (i * hd) ((i + 1) * hd))) := by
  refine ⟨rfl, ?_⟩
  intro q q' k k' v v' hd i j h1 h2 h3
  rw [h1, h2, h3]

/-- Witness for C7: the transposition of head indices 0 and 1 on a concrete
2-head layer. -/
theorem head_permutation_invariant_witness :
    Function.Bijective (fun n : ℕ => if n = 0 then 1 else if n = 1 then 0 else n) ∧
    (⟨2, none, "glorot_normal", none, none, "mha_1"⟩ :
        MultiHeadAttention).callAssigned (fun _ _ v => v)
        (fun n : ℕ => if n = 0 then 1 else if n = 1 then 0 else n)
        ⟨[[1, 0], [0, 1]], [[1, 0], [0, 1]], [[1, 0], [0, 1]], [[1, 0], [0, 1]]⟩
        [[[1, 2]]] none =
      (⟨2, none, "glorot_normal", none, none, "mha_1"⟩ :
        MultiHeadAttention).call (fun _ _ v => v)
        ⟨[[1, 0], [0, 1]], [[1, 0], [0, 1]], [[1, 0], [0, 1]], [[1, 0], [0, 1]]⟩
        [[[1, 2]]] none := by
  have hp : Function.Bijective (fun n : ℕ => if n = 0 then 1 else if n = 1 then 0 else n) := by
    apply Function.Involutive.bijective
    intro n
    by_cases h0 : n = 0
    · simp [h0]
    · by_cases h1 : n = 1
      · simp [h0, h1]
      · simp [h0, h1]
  exact ⟨hp, (head_permutation_invariant _ _ _ _ none _ hp).1⟩

end KerasMultiHead
